import Mathlib

/-!
Shallow embedding of src/wgpu/src/triangle.rs (the iced wgpu triangle
pipeline): the growable GPU buffers, the per-mesh uniform packing, and the
batched upload-and-draw algorithm of Pipeline::draw, modelled as a pure
function from a pipeline state and a mesh list to a new pipeline state and
the trace of GPU commands recorded on the encoder / render pass.
-/

namespace Iced

/-- Byte size of an f32. -/
def f32Size : Nat := 4

/-- Byte size of a u32 (the index type, wgpu::IndexFormat::Uint32). -/
def u32Size : Nat := 4

/-- Byte size of iced_graphics Vertex2D: position [f32; 2] then color
[f32; 4] (spec section 6: 2 float position at offset 0, 4 float color at
offset 8). -/
def vertex2DSize : Nat := 2 * f32Size + 4 * f32Size

/-- Byte size of the repr(C) Uniforms record of triangle.rs lines 407-415:
transform [f32; 16], then padding [f32; 32] and [f32; 16]. -/
def uniformsSize : Nat := 16 * f32Size + 32 * f32Size + 16 * f32Size

/-- Modelled from the spec: Transformation (iced_graphics, not under src/)
is a 4x4 transform matrix; entries are modelled as rationals, which is exact
for every value the claims mention. -/
abbrev Transformation := Matrix (Fin 4) (Fin 4) ℚ

/-- Modelled from the spec: the identity transformation. -/
def Transformation.identity : Transformation := 1

/-- Modelled from the spec: Transformation::translate (x, y) is the standard
homogeneous translation matrix: the identity with entries (0, 3) = x and
(1, 3) = y. -/
def Transformation.translate (x y : ℚ) : Transformation :=
  Matrix.of fun i j =>
    if i = j then 1
    else if i = 0 ∧ j = 3 then x
    else if i = 1 ∧ j = 3 then y
    else 0

/-- A vertex of iced_graphics Mesh2D: 2D position and RGBA color. -/
structure Vertex2D where
  position : ℚ × ℚ
  color : ℚ × ℚ × ℚ × ℚ

/-- The Uniforms record of triangle.rs: a transform plus zero padding (the
padding contributes only to uniformsSize). -/
structure Uniforms where
  transform : Transformation

/-- A rectangle with f32 components (iced_graphics Rectangle of f32). -/
structure Rectangle where
  x : ℚ
  y : ℚ
  width : ℚ
  height : ℚ
  deriving DecidableEq

/-- A rectangle with integer (u32) components, the result of snapping. -/
structure URect where
  x : Nat
  y : Nat
  width : Nat
  height : Nat
  deriving DecidableEq

/-- Modelled from the spec: multiplying a Rectangle by a scale factor scales
all four components (clip rectangle scaled by the display scale factor). -/
def Rectangle.scale (r : Rectangle) (factor : ℚ) : Rectangle :=
  { x := r.x * factor, y := r.y * factor,
    width := r.width * factor, height := r.height * factor }

/-- The ceiling of a rational, written through Rat.floor so that it reduces
in the kernel. -/
def ratCeil (q : ℚ) : Int := -(Rat.floor (-q))

/-- Modelled from the spec: Rectangle::snap (iced_graphics, not under src/)
snaps a rectangle to integer pixel bounds; we take the floor of the position
and the ceiling of the extent. The spec leaves the exact rounding rule open,
and every claim evaluates snap only at exact integers, where all rules
agree. -/
def Rectangle.snap (r : Rectangle) : URect :=
  { x := r.x.floor.toNat, y := r.y.floor.toNat,
    width := (ratCeil r.width).toNat, height := (ratCeil r.height).toNat }

/-- A layer::Mesh as consumed by Pipeline::draw: vertex list, index list,
origin point and clip rectangle. -/
structure Mesh where
  vertices : List Vertex2D
  indices : List Nat
  originX : ℚ
  originY : ℚ
  clip_bounds : Rectangle

/-- Byte length of the vertex data of a mesh (bytemuck cast of the vertex
slice). -/
def vertexBytes (m : Mesh) : Nat := vertex2DSize * m.vertices.length

/-- Byte length of the index data of a mesh (bytemuck cast of the u32
slice). -/
def indexBytes (m : Mesh) : Nat := u32Size * m.indices.length

/-- A growable GPU buffer (struct Buffer of triangle.rs): its declared
element capacity, and a generation number standing for the identity of the
owned wgpu buffer handle — a fresh allocation gets a fresh generation. -/
structure Buffer where
  size : Nat
  gen : Nat
  deriving DecidableEq

/-- Buffer::expand (triangle.rs lines 55-70): if the current size is smaller
than the requested size, allocate a new buffer of exactly the requested
element count (new handle, hence new generation), record the new size and
return true; otherwise do nothing and return false. -/
def Buffer.expand (b : Buffer) (size : Nat) : Buffer × Bool :=
  if b.size < size then ({ size := size, gen := b.gen + 1 }, true)
  else (b, false)

/-- Which of the three shared GPU buffers a staging-belt write targets. -/
inductive BufferId
  | vertex
  | index
  | uniform
  deriving DecidableEq

/-- A color attachment of the render pass: either the caller's target view
or the msaa blit collaborator's multisampled attachment. -/
inductive Attachment
  | targetView
  | msaaAttachment
  deriving DecidableEq

/-- The load operation of the render pass. -/
inductive LoadOp
  | load
  | clearTransparent
  deriving DecidableEq

/-- One recorded GPU command: a staging-belt buffer write on the encoder, a
render-pass begin, render-pass state changes and draws, or the msaa blit
resolve draw. setBindGroup records the generation of the uniforms buffer
that the bound bind group was created over, together with the dynamic
offset. -/
inductive Cmd
  | writeBuffer (buf : BufferId) (offset : Nat) (len : Nat)
  | beginRenderPass (attachment : Attachment) (resolve : Option Attachment)
      (loadOp : LoadOp)
  | setPipeline
  | setScissorRect (x : Nat) (y : Nat) (w : Nat) (h : Nat)
  | setBindGroup (bufGen : Nat) (dynOffset : Nat)
  | setIndexBuffer (bufGen : Nat)
  | setVertexBuffer (bufGen : Nat)
  | drawIndexed (startIndex : Nat) (endIndex : Nat) (baseVertex : Nat)
  | blitDraw (dst : Attachment)
  deriving DecidableEq

/-- The transient per-frame bookkeeping of the upload loop of
Pipeline::draw: the packed uniform list, the recorded
(vertex_offset, index_offset, index_count) triples, the running cursors
last_vertex and last_index, and the staging-belt writes recorded so far. -/
structure UploadState where
  uniforms : List Uniforms
  offsets : List (Nat × Nat × Nat)
  last_vertex : Nat
  last_index : Nat
  cmds : List Cmd

/-- The upload state at the start of the loop. -/
def initialUpload : UploadState :=
  { uniforms := [], offsets := [], last_vertex := 0, last_index := 0,
    cmds := [] }

/-- One iteration of the upload loop of Pipeline::draw (lines 267-317): the
mesh's transform is the ambient transformation times the translation by its
origin; if both the vertex byte length and the index byte length are
non-zero (wgpu BufferSize::new returns None on zero), write the vertex bytes
at byte offset sizeof(Vertex2D) * last_vertex and the index bytes at
sizeof(u32) * last_index, push the uniform block and the offsets triple, and
advance both cursors; otherwise skip the mesh entirely. -/
def uploadMesh (transformation : Transformation) (s : UploadState)
    (mesh : Mesh) : UploadState :=
  let transform : Uniforms :=
    { transform :=
        transformation * Transformation.translate mesh.originX mesh.originY }
  if vertexBytes mesh ≠ 0 ∧ indexBytes mesh ≠ 0 then
    { uniforms := s.uniforms ++ [transform]
      offsets := s.offsets ++ [(s.last_vertex, s.last_index,
        mesh.indices.length)]
      last_vertex := s.last_vertex + mesh.vertices.length
      last_index := s.last_index + mesh.indices.length
      cmds := s.cmds ++
        [Cmd.writeBuffer BufferId.vertex (vertex2DSize * s.last_vertex)
          (vertexBytes mesh),
         Cmd.writeBuffer BufferId.index (u32Size * s.last_index)
          (indexBytes mesh)] }
  else s

/-- The upload loop over the mesh list, in input order. -/
def uploadLoop (transformation : Transformation) :
    UploadState → List Mesh → UploadState
  | s, [] => s
  | s, mesh :: rest => uploadLoop transformation (uploadMesh transformation s mesh) rest

/-- The scissor rectangle computed for the mesh at position i of the input
list: its clip bounds scaled by the scale factor and snapped (line 372). -/
def scissorOf (scale_factor : ℚ) (mesh : Mesh) : URect :=
  (mesh.clip_bounds.scale scale_factor).snap

/-- The fallback mesh used to totalize list indexing (the Rust code indexes
meshes[i], which in the source is always in bounds since offsets is never
longer than meshes). -/
def defaultMesh : Mesh :=
  { vertices := [], indices := [], originX := 0, originY := 0,
    clip_bounds := { x := 0, y := 0, width := 0, height := 0 } }

/-- The render-pass loop of Pipeline::draw (lines 369-398): for the i-th
recorded offsets triple, set the scissor rectangle from the clip bounds of
meshes[i] (note: indexed by i, the position among the RECORDED triples, not
among the meshes), bind the uniform bind group at dynamic offset
sizeof(Uniforms) * i, bind the shared index and vertex buffers, and issue an
indexed draw over index_offset..index_offset + index_count with base vertex
vertex_offset. -/
def recordDraws (constants vbGen ibGen : Nat) (scale_factor : ℚ)
    (meshes : List Mesh) : Nat → List (Nat × Nat × Nat) → List Cmd
  | _, [] => []
  | i, (vertex_offset, index_offset, indices) :: rest =>
    let clip := scissorOf scale_factor (meshes.getD i defaultMesh)
    Cmd.setScissorRect clip.x clip.y clip.width clip.height ::
    Cmd.setBindGroup constants (uniformsSize * i) ::
    Cmd.setIndexBuffer ibGen ::
    Cmd.setVertexBuffer vbGen ::
    Cmd.drawIndexed index_offset (index_offset + indices) vertex_offset ::
    recordDraws constants vbGen ibGen scale_factor meshes (i + 1) rest

/-- The pipeline state that persists across frames: whether the msaa blit
collaborator is present (antialiasing configured), the generation of the
uniforms buffer that the current bind group (constants) was created over,
and the three growable buffers. -/
structure Pipeline where
  blit : Bool
  constants : Nat
  uniforms_buffer : Buffer
  vertex_buffer : Buffer
  index_buffer : Buffer

def UNIFORM_BUFFER_SIZE : Nat := 50
def VERTEX_BUFFER_SIZE : Nat := 10000
def INDEX_BUFFER_SIZE : Nat := 10000

/-- Pipeline::new (triangle.rs lines 74-208): fresh buffers at the default
capacities, and the constants bind group created over the fresh uniforms
buffer. -/
def Pipeline.new (antialiasing : Bool) : Pipeline :=
  { blit := antialiasing
    constants := 0
    uniforms_buffer := { size := UNIFORM_BUFFER_SIZE, gen := 0 }
    vertex_buffer := { size := VERTEX_BUFFER_SIZE, gen := 0 }
    index_buffer := { size := INDEX_BUFFER_SIZE, gen := 0 } }

/-- The result of one Pipeline::draw call: the updated pipeline state and
the trace of commands recorded on the encoder. -/
structure DrawResult where
  pipeline : Pipeline
  cmds : List Cmd

/-- Pipeline::draw (triangle.rs lines 210-404): sum the vertex and index
counts, expand the three buffers, recreate the constants bind group if the
uniforms buffer was reallocated, run the upload loop, write the packed
uniform list in one upload at byte 0 when it is non-empty, begin exactly one
render pass (through the msaa blit collaborator when antialiasing is on,
with clear-to-transparent; directly on the target with a preserving load
otherwise), set the shared pipeline, record the per-mesh draws, and finally
record the blit resolve draw when antialiasing is on. -/
def Pipeline.draw (p : Pipeline) (transformation : Transformation)
    (scale_factor : ℚ) (meshes : List Mesh) : DrawResult :=
  let total_vertices := (meshes.map (fun m => m.vertices.length)).sum
  let total_indices := (meshes.map (fun m => m.indices.length)).sum
  let vb := (p.vertex_buffer.expand total_vertices).1
  let ib := (p.index_buffer.expand total_indices).1
  let ubr := p.uniforms_buffer.expand meshes.length
  let constants := if ubr.2 then ubr.1.gen else p.constants
  let up := uploadLoop transformation initialUpload meshes
  let uniformBytesLen := uniformsSize * up.uniforms.length
  let uploadCmds := up.cmds ++
    (if uniformBytesLen ≠ 0 then
      [Cmd.writeBuffer BufferId.uniform 0 uniformBytesLen]
    else [])
  let passBegin :=
    if p.blit then
      Cmd.beginRenderPass Attachment.msaaAttachment
        (some Attachment.targetView) LoadOp.clearTransparent
    else
      Cmd.beginRenderPass Attachment.targetView none LoadOp.load
  let cmds := uploadCmds ++ passBegin :: Cmd.setPipeline ::
    (recordDraws constants vb.gen ib.gen scale_factor meshes 0 up.offsets ++
      (if p.blit then [Cmd.blitDraw Attachment.targetView] else []))
  { pipeline := Pipeline.mk p.blit constants ubr.1 vb ib, cmds := cmds }

/-! Trace observations: projections of a command trace. -/

/-- The indexed draw calls of a trace, in order:
(startIndex, endIndex, baseVertex). -/
def drawCallsOf (cmds : List Cmd) : List (Nat × Nat × Nat) :=
  cmds.filterMap fun c => match c with
    | Cmd.drawIndexed a b v => some (a, b, v)
    | _ => none

/-- The scissor rectangles set in a trace, in order. -/
def scissorsOf (cmds : List Cmd) : List URect :=
  cmds.filterMap fun c => match c with
    | Cmd.setScissorRect x y w h => some (URect.mk x y w h)
    | _ => none

/-- The dynamic uniform offsets of the bind-group bindings of a trace, in
order. -/
def bindOffsetsOf (cmds : List Cmd) : List Nat :=
  cmds.filterMap fun c => match c with
    | Cmd.setBindGroup _ o => some o
    | _ => none

/-- The uniforms-buffer generations referenced by the bind-group bindings of
a trace, in order. -/
def bindGensOf (cmds : List Cmd) : List Nat :=
  cmds.filterMap fun c => match c with
    | Cmd.setBindGroup g _ => some g
    | _ => none

/-- The render-pass begins of a trace, in order. -/
def passBeginsOf (cmds : List Cmd) : List (Attachment × Option Attachment × LoadOp) :=
  cmds.filterMap fun c => match c with
    | Cmd.beginRenderPass a r l => some (a, r, l)
    | _ => none

/-- The staging-belt writes of a trace targeting one of the three shared
buffers, in order: (byte offset, byte length). -/
def writesToOf (b : BufferId) (cmds : List Cmd) : List (Nat × Nat) :=
  cmds.filterMap fun c => match c with
    | Cmd.writeBuffer b2 o l => if b2 = b then some (o, l) else none
    | _ => none

/-- The blit resolve draws of a trace, in order. -/
def blitDrawsOf (cmds : List Cmd) : List Attachment :=
  cmds.filterMap fun c => match c with
    | Cmd.blitDraw d => some d
    | _ => none

/-- A mesh is non-degenerate when both its vertex byte length and its index
byte length are non-zero: exactly the meshes the upload loop does not
skip. -/
def nondegenerate (m : Mesh) : Bool :=
  decide (vertexBytes m ≠ 0 ∧ indexBytes m ≠ 0)

/-! Concrete inputs used by witnesses and counterexamples. -/

/-- A sample vertex. -/
def vertexA : Vertex2D := { position := (0, 0), color := (1, 1, 1, 1) }

/-- Scenario mesh A: one triangle, origin (0, 0), clip (0, 0, 100, 100). -/
def meshA : Mesh :=
  { vertices := [vertexA, vertexA, vertexA], indices := [0, 1, 2],
    originX := 0, originY := 0,
    clip_bounds := { x := 0, y := 0, width := 100, height := 100 } }

/-- Scenario mesh B: one triangle, origin (10, 10), clip (0, 0, 50, 50). -/
def meshB : Mesh :=
  { vertices := [vertexA, vertexA, vertexA], indices := [0, 1, 2],
    originX := 10, originY := 10,
    clip_bounds := { x := 0, y := 0, width := 50, height := 50 } }

/-- A fully degenerate mesh (no vertices, no indices) with clip
(0, 0, 100, 100). -/
def meshDegenerate : Mesh :=
  { vertices := [], indices := [], originX := 0, originY := 0,
    clip_bounds := { x := 0, y := 0, width := 100, height := 100 } }

/-- A mesh with three vertices but no indices (degenerate for the upload
loop, yet contributing to total_vertices). -/
def meshNoIndices : Mesh :=
  { vertices := [vertexA, vertexA, vertexA], indices := [],
    originX := 0, originY := 0,
    clip_bounds := { x := 0, y := 0, width := 100, height := 100 } }

/-- Spec-side description of the recorded offsets (spec section 4.3, step
4d): for each mesh, the vertex cursor, the index cursor and the index count,
with the cursors advancing by the mesh's counts. -/
def offsetsSpec : List Mesh → Nat → Nat → List (Nat × Nat × Nat)
  | [], _, _ => []
  | m :: rest, vc, ic =>
    (vc, ic, m.indices.length) ::
      offsetsSpec rest (vc + m.vertices.length) (ic + m.indices.length)

/-- Spec-side description of the per-mesh buffer writes (spec section 4.3,
step 4b): for element counts ns and element size esize, the n-th write
starts at byte offset esize * cursor and spans esize * ns[n] bytes, the
cursor advancing by the written element count. -/
def writesSpec (esize : Nat) : List Nat → Nat → List (Nat × Nat)
  | [], _ => []
  | n :: rest, cursor =>
    (esize * cursor, esize * n) :: writesSpec esize rest (cursor + n)

/-- A homogeneous 2D point as a 4-vector (z = 0, w = 1). -/
def point (px py : ℚ) : Fin 4 → ℚ := ![px, py, 0, 1]

/-- Rat.floor agrees with the floor of the FloorRing instance of ℚ. -/
theorem ratFloor_eq (q : ℚ) : q.floor = ⌊q⌋ := rfl

/-- ratCeil agrees with the ceiling of the FloorRing instance of ℚ. -/
theorem ratCeil_eq (q : ℚ) : ratCeil q = ⌈q⌉ := by
  rw [ratCeil, ratFloor_eq, Int.floor_neg, neg_neg]

/-! Helper lemmas on the trace projections. -/

/-- drawCallsOf distributes over append. -/
theorem drawCallsOf_append (l1 l2 : List Cmd) :
    drawCallsOf (l1 ++ l2) = drawCallsOf l1 ++ drawCallsOf l2 := by
  simp [drawCallsOf, List.filterMap_append]

/-- scissorsOf distributes over append. -/
theorem scissorsOf_append (l1 l2 : List Cmd) :
    scissorsOf (l1 ++ l2) = scissorsOf l1 ++ scissorsOf l2 := by
  simp [scissorsOf, List.filterMap_append]

/-- bindOffsetsOf distributes over append. -/
theorem bindOffsetsOf_append (l1 l2 : List Cmd) :
    bindOffsetsOf (l1 ++ l2) = bindOffsetsOf l1 ++ bindOffsetsOf l2 := by
  simp [bindOffsetsOf, List.filterMap_append]

/-- bindGensOf distributes over append. -/
theorem bindGensOf_append (l1 l2 : List Cmd) :
    bindGensOf (l1 ++ l2) = bindGensOf l1 ++ bindGensOf l2 := by
  simp [bindGensOf, List.filterMap_append]

/-- passBeginsOf distributes over append. -/
theorem passBeginsOf_append (l1 l2 : List Cmd) :
    passBeginsOf (l1 ++ l2) = passBeginsOf l1 ++ passBeginsOf l2 := by
  simp [passBeginsOf, List.filterMap_append]

/-- writesToOf distributes over append. -/
theorem writesToOf_append (b : BufferId) (l1 l2 : List Cmd) :
    writesToOf b (l1 ++ l2) = writesToOf b l1 ++ writesToOf b l2 := by
  simp [writesToOf, List.filterMap_append]

/-- blitDrawsOf distributes over append. -/
theorem blitDrawsOf_append (l1 l2 : List Cmd) :
    blitDrawsOf (l1 ++ l2) = blitDrawsOf l1 ++ blitDrawsOf l2 := by
  simp [blitDrawsOf, List.filterMap_append]

/-- A trace projection that ignores staging-belt writes is unchanged by the
upload loop (whose commands are all staging-belt writes). -/
theorem filterMap_uploadLoop {β : Type} (f : Cmd → Option β)
    (hf : ∀ b o l, f (Cmd.writeBuffer b o l) = none)
    (t : Transformation) (ms : List Mesh) :
    ∀ s : UploadState,
      (uploadLoop t s ms).cmds.filterMap f = s.cmds.filterMap f := by
  induction ms with
  | nil => intro s; rfl
  | cons m rest ih =>
    intro s
    have h2 : (uploadMesh t s m).cmds.filterMap f = s.cmds.filterMap f := by
      simp only [uploadMesh]
      split
      · simp [List.filterMap_append, hf]
      · rfl
    calc (uploadLoop t s (m :: rest)).cmds.filterMap f
        = (uploadLoop t (uploadMesh t s m) rest).cmds.filterMap f := rfl
      _ = (uploadMesh t s m).cmds.filterMap f := ih _
      _ = s.cmds.filterMap f := h2

/-- The upload loop records no draw calls. -/
theorem drawCallsOf_uploadLoop (t : Transformation) (ms : List Mesh) :
    drawCallsOf (uploadLoop t initialUpload ms).cmds = [] := by
  show (uploadLoop t initialUpload ms).cmds.filterMap _ = _
  rw [filterMap_uploadLoop]
  · rfl
  · intro b o l; rfl

/-- The upload loop records no scissor rectangles. -/
theorem scissorsOf_uploadLoop (t : Transformation) (ms : List Mesh) :
    scissorsOf (uploadLoop t initialUpload ms).cmds = [] := by
  show (uploadLoop t initialUpload ms).cmds.filterMap _ = _
  rw [filterMap_uploadLoop]
  · rfl
  · intro b o l; rfl

/-- The upload loop records no bind-group bindings. -/
theorem bindOffsetsOf_uploadLoop (t : Transformation) (ms : List Mesh) :
    bindOffsetsOf (uploadLoop t initialUpload ms).cmds = [] := by
  show (uploadLoop t initialUpload ms).cmds.filterMap _ = _
  rw [filterMap_uploadLoop]
  · rfl
  · intro b o l; rfl

/-- The upload loop records no bind-group bindings (generation view). -/
theorem bindGensOf_uploadLoop (t : Transformation) (ms : List Mesh) :
    bindGensOf (uploadLoop t initialUpload ms).cmds = [] := by
  show (uploadLoop t initialUpload ms).cmds.filterMap _ = _
  rw [filterMap_uploadLoop]
  · rfl
  · intro b o l; rfl

/-- The upload loop begins no render pass. -/
theorem passBeginsOf_uploadLoop (t : Transformation) (ms : List Mesh) :
    passBeginsOf (uploadLoop t initialUpload ms).cmds = [] := by
  show (uploadLoop t initialUpload ms).cmds.filterMap _ = _
  rw [filterMap_uploadLoop]
  · rfl
  · intro b o l; rfl

/-- The upload loop records no blit resolve draw. -/
theorem blitDrawsOf_uploadLoop (t : Transformation) (ms : List Mesh) :
    blitDrawsOf (uploadLoop t initialUpload ms).cmds = [] := by
  show (uploadLoop t initialUpload ms).cmds.filterMap _ = _
  rw [filterMap_uploadLoop]
  · rfl
  · intro b o l; rfl

/-- The draw calls recorded by the render-pass loop, in order: for the
recorded triple (vertex_offset, index_offset, index_count), the index range
index_offset..index_offset + index_count with base vertex vertex_offset. -/
theorem drawCallsOf_recordDraws (c vb ib : Nat) (sf : ℚ) (ms : List Mesh) :
    ∀ (i : Nat) (os : List (Nat × Nat × Nat)),
      drawCallsOf (recordDraws c vb ib sf ms i os) =
        os.map (fun x => (x.2.1, x.2.1 + x.2.2, x.1)) := by
  intro i os
  induction os generalizing i with
  | nil => rfl
  | cons o rest ih =>
    obtain ⟨vo, io, n⟩ := o
    simp [recordDraws, drawCallsOf, List.filterMap_cons] at ih ⊢
    exact ih (i + 1)

/-- The scissor rectangles recorded by the render-pass loop starting at
enumeration index i: the k-th one is computed from the clip bounds of the
mesh at position i + k of the full input list. -/
theorem scissorsOf_recordDraws (c vb ib : Nat) (sf : ℚ) (ms : List Mesh) :
    ∀ (i : Nat) (os : List (Nat × Nat × Nat)),
      scissorsOf (recordDraws c vb ib sf ms i os) =
        (List.range os.length).map
          (fun k => scissorOf sf (ms.getD (i + k) defaultMesh)) := by
  intro i os
  induction os generalizing i with
  | nil => rfl
  | cons o rest ih =>
    obtain ⟨vo, io, n⟩ := o
    have hcons : scissorsOf (recordDraws c vb ib sf ms i ((vo, io, n) :: rest)) =
        scissorOf sf (ms.getD i defaultMesh) ::
          scissorsOf (recordDraws c vb ib sf ms (i + 1) rest) := rfl
    rw [hcons, ih (i + 1), List.length_cons, List.range_succ_eq_map,
      List.map_cons, List.map_map]
    refine congrArg₂ List.cons (by rw [Nat.add_zero]) ?_
    refine congrArg (fun f => List.map f (List.range rest.length)) ?_
    funext k
    show scissorOf sf (ms.getD (i + 1 + k) defaultMesh) =
      scissorOf sf (ms.getD (i + (k + 1)) defaultMesh)
    have h3 : i + 1 + k = i + (k + 1) := by omega
    rw [h3]

/-- The dynamic uniform offsets recorded by the render-pass loop starting at
enumeration index i: the k-th one is sizeof(Uniforms) * (i + k). -/
theorem bindOffsetsOf_recordDraws (c vb ib : Nat) (sf : ℚ) (ms : List Mesh) :
    ∀ (i : Nat) (os : List (Nat × Nat × Nat)),
      bindOffsetsOf (recordDraws c vb ib sf ms i os) =
        (List.range os.length).map (fun k => uniformsSize * (i + k)) := by
  intro i os
  induction os generalizing i with
  | nil => rfl
  | cons o rest ih =>
    obtain ⟨vo, io, n⟩ := o
    have hcons : bindOffsetsOf (recordDraws c vb ib sf ms i ((vo, io, n) :: rest)) =
        uniformsSize * i ::
          bindOffsetsOf (recordDraws c vb ib sf ms (i + 1) rest) := rfl
    rw [hcons, ih (i + 1), List.length_cons, List.range_succ_eq_map,
      List.map_cons, List.map_map]
    refine congrArg₂ List.cons (by rw [Nat.add_zero]) ?_
    refine congrArg (fun f => List.map f (List.range rest.length)) ?_
    funext k
    show uniformsSize * (i + 1 + k) = uniformsSize * (i + (k + 1))
    have h3 : i + 1 + k = i + (k + 1) := by omega
    rw [h3]

/-- Every bind-group binding recorded by the render-pass loop references the
bind group passed in (the constants bind group). -/
theorem bindGensOf_recordDraws (c vb ib : Nat) (sf : ℚ) (ms : List Mesh) :
    ∀ (i : Nat) (os : List (Nat × Nat × Nat)),
      bindGensOf (recordDraws c vb ib sf ms i os) =
        List.replicate os.length c := by
  intro i os
  induction os generalizing i with
  | nil => rfl
  | cons o rest ih =>
    obtain ⟨vo, io, n⟩ := o
    simp [recordDraws, bindGensOf, List.filterMap_cons,
      List.replicate_succ] at ih ⊢
    exact ih (i + 1)

/-- The render-pass loop records no staging-belt writes. -/
theorem writesToOf_recordDraws (b : BufferId) (c vb ib : Nat) (sf : ℚ)
    (ms : List Mesh) :
    ∀ (i : Nat) (os : List (Nat × Nat × Nat)),
      writesToOf b (recordDraws c vb ib sf ms i os) = [] := by
  intro i os
  induction os generalizing i with
  | nil => rfl
  | cons o rest ih =>
    obtain ⟨vo, io, n⟩ := o
    simp [recordDraws, writesToOf, List.filterMap_cons] at ih ⊢
    exact ih (i + 1)

/-- The render-pass loop begins no render pass. -/
theorem passBeginsOf_recordDraws (c vb ib : Nat) (sf : ℚ) (ms : List Mesh) :
    ∀ (i : Nat) (os : List (Nat × Nat × Nat)),
      passBeginsOf (recordDraws c vb ib sf ms i os) = [] := by
  intro i os
  induction os generalizing i with
  | nil => rfl
  | cons o rest ih =>
    obtain ⟨vo, io, n⟩ := o
    simp [recordDraws, passBeginsOf, List.filterMap_cons] at ih ⊢
    exact ih (i + 1)

/-- The render-pass loop records no blit resolve draw. -/
theorem blitDrawsOf_recordDraws (c vb ib : Nat) (sf : ℚ) (ms : List Mesh) :
    ∀ (i : Nat) (os : List (Nat × Nat × Nat)),
      blitDrawsOf (recordDraws c vb ib sf ms i os) = [] := by
  intro i os
  induction os generalizing i with
  | nil => rfl
  | cons o rest ih =>
    obtain ⟨vo, io, n⟩ := o
    simp [recordDraws, blitDrawsOf, List.filterMap_cons] at ih ⊢
    exact ih (i + 1)

/-- Unfolding of uploadMesh on a non-degenerate mesh. -/
theorem uploadMesh_pos (t : Transformation) (s : UploadState) (m : Mesh)
    (h : vertexBytes m ≠ 0 ∧ indexBytes m ≠ 0) :
    uploadMesh t s m =
      { uniforms := s.uniforms ++
          [Uniforms.mk (t * Transformation.translate m.originX m.originY)],
        offsets := s.offsets ++
          [(s.last_vertex, s.last_index, m.indices.length)],
        last_vertex := s.last_vertex + m.vertices.length,
        last_index := s.last_index + m.indices.length,
        cmds := s.cmds ++
          [Cmd.writeBuffer BufferId.vertex (vertex2DSize * s.last_vertex)
            (vertexBytes m),
           Cmd.writeBuffer BufferId.index (u32Size * s.last_index)
            (indexBytes m)] } := by
  simp only [uploadMesh, if_pos h]

/-- Unfolding of uploadMesh on a degenerate mesh: skipped entirely. -/
theorem uploadMesh_neg (t : Transformation) (s : UploadState) (m : Mesh)
    (h : ¬(vertexBytes m ≠ 0 ∧ indexBytes m ≠ 0)) :
    uploadMesh t s m = s := by
  simp only [uploadMesh, if_neg h]

/-- The uniform list built by the upload loop: one block per non-degenerate
mesh, in input order, holding the ambient transformation times the
translation by the mesh's origin. -/
theorem uploadLoop_uniforms (t : Transformation) (ms : List Mesh) :
    ∀ s : UploadState, (uploadLoop t s ms).uniforms =
      s.uniforms ++ (ms.filter nondegenerate).map
        (fun m =>
          Uniforms.mk (t * Transformation.translate m.originX m.originY)) := by
  induction ms with
  | nil => intro s; simp [uploadLoop]
  | cons m rest ih =>
    intro s
    have step : uploadLoop t s (m :: rest) =
      uploadLoop t (uploadMesh t s m) rest := rfl
    rw [step, ih]
    by_cases h : vertexBytes m ≠ 0 ∧ indexBytes m ≠ 0
    · have hn : nondegenerate m = true := by simpa [nondegenerate] using h
      simp [uploadMesh, h, List.filter_cons, hn, List.append_assoc]
    · have hn : nondegenerate m = false := by simpa [nondegenerate] using h
      simp [uploadMesh, h, List.filter_cons, hn]

/-- The offsets list built by the upload loop matches the spec-side cursor
description over the non-degenerate meshes. -/
theorem uploadLoop_offsets (t : Transformation) (ms : List Mesh) :
    ∀ s : UploadState, (uploadLoop t s ms).offsets =
      s.offsets ++ offsetsSpec (ms.filter nondegenerate)
        s.last_vertex s.last_index := by
  induction ms with
  | nil => intro s; simp [uploadLoop, offsetsSpec]
  | cons m rest ih =>
    intro s
    have step : uploadLoop t s (m :: rest) =
      uploadLoop t (uploadMesh t s m) rest := rfl
    rw [step, ih]
    by_cases h : vertexBytes m ≠ 0 ∧ indexBytes m ≠ 0
    · have hn : nondegenerate m = true := by simpa [nondegenerate] using h
      simp [uploadMesh, h, List.filter_cons, hn, offsetsSpec,
        List.append_assoc]
    · have hn : nondegenerate m = false := by simpa [nondegenerate] using h
      simp [uploadMesh, h, List.filter_cons, hn]

/-- The vertex cursor after the upload loop: advanced by the vertex counts
of exactly the non-degenerate meshes. -/
theorem uploadLoop_last_vertex (t : Transformation) (ms : List Mesh) :
    ∀ s : UploadState, (uploadLoop t s ms).last_vertex =
      s.last_vertex +
        ((ms.filter nondegenerate).map (fun m => m.vertices.length)).sum := by
  induction ms with
  | nil => intro s; simp [uploadLoop]
  | cons m rest ih =>
    intro s
    have step : uploadLoop t s (m :: rest) =
      uploadLoop t (uploadMesh t s m) rest := rfl
    rw [step, ih]
    by_cases h : vertexBytes m ≠ 0 ∧ indexBytes m ≠ 0
    · have hn : nondegenerate m = true := by simpa [nondegenerate] using h
      simp [uploadMesh, h, List.filter_cons, hn]
      omega
    · have hn : nondegenerate m = false := by simpa [nondegenerate] using h
      simp [uploadMesh, h, List.filter_cons, hn]

/-- The index cursor after the upload loop: advanced by the index counts of
exactly the non-degenerate meshes. -/
theorem uploadLoop_last_index (t : Transformation) (ms : List Mesh) :
    ∀ s : UploadState, (uploadLoop t s ms).last_index =
      s.last_index +
        ((ms.filter nondegenerate).map (fun m => m.indices.length)).sum := by
  induction ms with
  | nil => intro s; simp [uploadLoop]
  | cons m rest ih =>
    intro s
    have step : uploadLoop t s (m :: rest) =
      uploadLoop t (uploadMesh t s m) rest := rfl
    rw [step, ih]
    by_cases h : vertexBytes m ≠ 0 ∧ indexBytes m ≠ 0
    · have hn : nondegenerate m = true := by simpa [nondegenerate] using h
      simp [uploadMesh, h, List.filter_cons, hn]
      omega
    · have hn : nondegenerate m = false := by simpa [nondegenerate] using h
      simp [uploadMesh, h, List.filter_cons, hn]

/-- The vertex-buffer writes of the upload loop match the spec-side cursor
description: the write for each non-degenerate mesh starts at byte offset
sizeof(Vertex2D) * vertex_cursor and spans its vertex bytes. -/
theorem uploadLoop_vertex_writes (t : Transformation) (ms : List Mesh) :
    ∀ s : UploadState,
      writesToOf BufferId.vertex (uploadLoop t s ms).cmds =
        writesToOf BufferId.vertex s.cmds ++
          writesSpec vertex2DSize
            ((ms.filter nondegenerate).map (fun m => m.vertices.length))
            s.last_vertex := by
  induction ms with
  | nil => intro s; simp [uploadLoop, writesSpec]
  | cons m rest ih =>
    intro s
    have step : uploadLoop t s (m :: rest) =
      uploadLoop t (uploadMesh t s m) rest := rfl
    rw [step, ih]
    by_cases h : vertexBytes m ≠ 0 ∧ indexBytes m ≠ 0
    · have hn : nondegenerate m = true := by simpa [nondegenerate] using h
      rw [uploadMesh_pos t s m h]
      simp [List.filter_cons, hn, writesSpec, writesToOf,
        List.filterMap_append, List.filterMap_cons, vertexBytes,
        List.append_assoc]
    · have hn : nondegenerate m = false := by simpa [nondegenerate] using h
      rw [uploadMesh_neg t s m h]
      simp [List.filter_cons, hn]

/-- The index-buffer writes of the upload loop match the spec-side cursor
description: the write for each non-degenerate mesh starts at byte offset
sizeof(u32) * index_cursor and spans its index bytes. -/
theorem uploadLoop_index_writes (t : Transformation) (ms : List Mesh) :
    ∀ s : UploadState,
      writesToOf BufferId.index (uploadLoop t s ms).cmds =
        writesToOf BufferId.index s.cmds ++
          writesSpec u32Size
            ((ms.filter nondegenerate).map (fun m => m.indices.length))
            s.last_index := by
  induction ms with
  | nil => intro s; simp [uploadLoop, writesSpec]
  | cons m rest ih =>
    intro s
    have step : uploadLoop t s (m :: rest) =
      uploadLoop t (uploadMesh t s m) rest := rfl
    rw [step, ih]
    by_cases h : vertexBytes m ≠ 0 ∧ indexBytes m ≠ 0
    · have hn : nondegenerate m = true := by simpa [nondegenerate] using h
      rw [uploadMesh_pos t s m h]
      simp [List.filter_cons, hn, writesSpec, writesToOf,
        List.filterMap_append, List.filterMap_cons, indexBytes,
        List.append_assoc]
    · have hn : nondegenerate m = false := by simpa [nondegenerate] using h
      rw [uploadMesh_neg t s m h]
      simp [List.filter_cons, hn]

/-- The upload loop never writes to the uniforms buffer. -/
theorem uploadLoop_uniform_writes (t : Transformation) (ms : List Mesh) :
    ∀ s : UploadState,
      writesToOf BufferId.uniform (uploadLoop t s ms).cmds =
        writesToOf BufferId.uniform s.cmds := by
  induction ms with
  | nil => intro s; rfl
  | cons m rest ih =>
    intro s
    have step : uploadLoop t s (m :: rest) =
      uploadLoop t (uploadMesh t s m) rest := rfl
    rw [step, ih]
    by_cases h : vertexBytes m ≠ 0 ∧ indexBytes m ≠ 0
    · simp [uploadMesh, h, writesToOf, List.filterMap_append,
        List.filterMap_cons]
    · simp [uploadMesh, h]

/-- The trace of Pipeline.draw, decomposed: the upload-loop writes, then the
optional packed uniform write, then the render pass (begin, pipeline, the
per-mesh draw groups) and the optional blit resolve draw. -/
theorem draw_cmds (p : Pipeline) (t : Transformation) (sf : ℚ)
    (ms : List Mesh) :
    (p.draw t sf ms).cmds =
      ((uploadLoop t initialUpload ms).cmds ++
        (if uniformsSize * (uploadLoop t initialUpload ms).uniforms.length ≠ 0
          then [Cmd.writeBuffer BufferId.uniform 0
            (uniformsSize * (uploadLoop t initialUpload ms).uniforms.length)]
          else [])) ++
      ((if p.blit then
          Cmd.beginRenderPass Attachment.msaaAttachment
            (some Attachment.targetView) LoadOp.clearTransparent
        else Cmd.beginRenderPass Attachment.targetView none LoadOp.load) ::
        Cmd.setPipeline ::
        (recordDraws
          (if (p.uniforms_buffer.expand ms.length).2 then
              (p.uniforms_buffer.expand ms.length).1.gen
            else p.constants)
          (p.vertex_buffer.expand
            ((ms.map (fun m => m.vertices.length)).sum)).1.gen
          (p.index_buffer.expand
            ((ms.map (fun m => m.indices.length)).sum)).1.gen
          sf ms 0 (uploadLoop t initialUpload ms).offsets ++
          (if p.blit then [Cmd.blitDraw Attachment.targetView] else []))) :=
  rfl

/-- The pipeline state after Pipeline.draw: the three buffers after their
expand calls, and the constants bind group rebuilt over the new uniforms
buffer exactly when that buffer was reallocated. -/
theorem draw_pipeline (p : Pipeline) (t : Transformation) (sf : ℚ)
    (ms : List Mesh) :
    (p.draw t sf ms).pipeline =
      Pipeline.mk p.blit
        (if (p.uniforms_buffer.expand ms.length).2 then
            (p.uniforms_buffer.expand ms.length).1.gen
          else p.constants)
        (p.uniforms_buffer.expand ms.length).1
        (p.vertex_buffer.expand ((ms.map (fun m => m.vertices.length)).sum)).1
        (p.index_buffer.expand ((ms.map (fun m => m.indices.length)).sum)).1 :=
  rfl

/-! Skip lemmas: each projection through the render-pass header commands. -/

theorem bindOffsetsOf_cons_pass (a : Attachment) (r : Option Attachment)
    (l : LoadOp) (rest : List Cmd) :
    bindOffsetsOf (Cmd.beginRenderPass a r l :: rest) = bindOffsetsOf rest :=
  rfl

theorem bindOffsetsOf_cons_pipeline (rest : List Cmd) :
    bindOffsetsOf (Cmd.setPipeline :: rest) = bindOffsetsOf rest := rfl

theorem bindOffsetsOf_blit (d : Attachment) :
    bindOffsetsOf [Cmd.blitDraw d] = [] := rfl

theorem bindGensOf_cons_pass (a : Attachment) (r : Option Attachment)
    (l : LoadOp) (rest : List Cmd) :
    bindGensOf (Cmd.beginRenderPass a r l :: rest) = bindGensOf rest := rfl

theorem bindGensOf_cons_pipeline (rest : List Cmd) :
    bindGensOf (Cmd.setPipeline :: rest) = bindGensOf rest := rfl

theorem bindGensOf_blit (d : Attachment) :
    bindGensOf [Cmd.blitDraw d] = [] := rfl

theorem drawCallsOf_cons_pass (a : Attachment) (r : Option Attachment)
    (l : LoadOp) (rest : List Cmd) :
    drawCallsOf (Cmd.beginRenderPass a r l :: rest) = drawCallsOf rest := rfl

theorem drawCallsOf_cons_pipeline (rest : List Cmd) :
    drawCallsOf (Cmd.setPipeline :: rest) = drawCallsOf rest := rfl

theorem drawCallsOf_blit (d : Attachment) :
    drawCallsOf [Cmd.blitDraw d] = [] := rfl

theorem scissorsOf_cons_pass (a : Attachment) (r : Option Attachment)
    (l : LoadOp) (rest : List Cmd) :
    scissorsOf (Cmd.beginRenderPass a r l :: rest) = scissorsOf rest := rfl

theorem scissorsOf_cons_pipeline (rest : List Cmd) :
    scissorsOf (Cmd.setPipeline :: rest) = scissorsOf rest := rfl

theorem scissorsOf_blit (d : Attachment) :
    scissorsOf [Cmd.blitDraw d] = [] := rfl

theorem passBeginsOf_cons_pass (a : Attachment) (r : Option Attachment)
    (l : LoadOp) (rest : List Cmd) :
    passBeginsOf (Cmd.beginRenderPass a r l :: rest) =
      (a, r, l) :: passBeginsOf rest := rfl

theorem passBeginsOf_cons_pipeline (rest : List Cmd) :
    passBeginsOf (Cmd.setPipeline :: rest) = passBeginsOf rest := rfl

theorem passBeginsOf_blit (d : Attachment) :
    passBeginsOf [Cmd.blitDraw d] = [] := rfl

theorem blitDrawsOf_cons_pass (a : Attachment) (r : Option Attachment)
    (l : LoadOp) (rest : List Cmd) :
    blitDrawsOf (Cmd.beginRenderPass a r l :: rest) = blitDrawsOf rest := rfl

theorem blitDrawsOf_cons_pipeline (rest : List Cmd) :
    blitDrawsOf (Cmd.setPipeline :: rest) = blitDrawsOf rest := rfl

theorem blitDrawsOf_blit (d : Attachment) :
    blitDrawsOf [Cmd.blitDraw d] = [d] := rfl

theorem writesToOf_cons_pass (b : BufferId) (a : Attachment)
    (r : Option Attachment) (l : LoadOp) (rest : List Cmd) :
    writesToOf b (Cmd.beginRenderPass a r l :: rest) = writesToOf b rest :=
  rfl

theorem writesToOf_cons_pipeline (b : BufferId) (rest : List Cmd) :
    writesToOf b (Cmd.setPipeline :: rest) = writesToOf b rest := rfl

theorem writesToOf_blit (b : BufferId) (d : Attachment) :
    writesToOf b [Cmd.blitDraw d] = [] := rfl

theorem writesToOf_nil (b : BufferId) : writesToOf b [] = [] := rfl

/-! Projections of the whole draw trace. -/

/-- The dynamic uniform offsets of the whole draw trace: the n-th recorded
bind is at offset sizeof(Uniforms) * n. -/
theorem bindOffsetsOf_draw (p : Pipeline) (t : Transformation) (sf : ℚ)
    (ms : List Mesh) :
    bindOffsetsOf (p.draw t sf ms).cmds =
      (List.range (uploadLoop t initialUpload ms).offsets.length).map
        (fun k => uniformsSize * k) := by
  rw [draw_cmds]
  have hX : bindOffsetsOf
      (if uniformsSize * (uploadLoop t initialUpload ms).uniforms.length ≠ 0
        then [Cmd.writeBuffer BufferId.uniform 0
          (uniformsSize * (uploadLoop t initialUpload ms).uniforms.length)]
        else []) = [] := by split <;> rfl
  rw [bindOffsetsOf_append, bindOffsetsOf_append, bindOffsetsOf_uploadLoop, hX]
  cases hbl : p.blit <;>
    simp [bindOffsetsOf_append, bindOffsetsOf_cons_pass, bindOffsetsOf_cons_pipeline,
      bindOffsetsOf_blit, bindOffsetsOf_recordDraws]

/-- The bind-group generations of the whole draw trace: every recorded bind
references the constants bind group chosen after the uniforms expand. -/
theorem bindGensOf_draw (p : Pipeline) (t : Transformation) (sf : ℚ)
    (ms : List Mesh) :
    bindGensOf (p.draw t sf ms).cmds =
      List.replicate (uploadLoop t initialUpload ms).offsets.length
        (if (p.uniforms_buffer.expand ms.length).2 then
            (p.uniforms_buffer.expand ms.length).1.gen
          else p.constants) := by
  rw [draw_cmds]
  have hX : bindGensOf
      (if uniformsSize * (uploadLoop t initialUpload ms).uniforms.length ≠ 0
        then [Cmd.writeBuffer BufferId.uniform 0
          (uniformsSize * (uploadLoop t initialUpload ms).uniforms.length)]
        else []) = [] := by split <;> rfl
  rw [bindGensOf_append, bindGensOf_append, bindGensOf_uploadLoop, hX]
  cases hbl : p.blit <;>
    simp [bindGensOf_append, bindGensOf_cons_pass, bindGensOf_cons_pipeline,
      bindGensOf_blit, bindGensOf_recordDraws]

/-- The draw calls of the whole draw trace: exactly one per recorded offsets
triple, in order, drawing index_offset..index_offset + index_count with base
vertex vertex_offset. -/
theorem drawCallsOf_draw (p : Pipeline) (t : Transformation) (sf : ℚ)
    (ms : List Mesh) :
    drawCallsOf (p.draw t sf ms).cmds =
      (uploadLoop t initialUpload ms).offsets.map
        (fun x => (x.2.1, x.2.1 + x.2.2, x.1)) := by
  rw [draw_cmds]
  have hX : drawCallsOf
      (if uniformsSize * (uploadLoop t initialUpload ms).uniforms.length ≠ 0
        then [Cmd.writeBuffer BufferId.uniform 0
          (uniformsSize * (uploadLoop t initialUpload ms).uniforms.length)]
        else []) = [] := by split <;> rfl
  rw [drawCallsOf_append, drawCallsOf_append, drawCallsOf_uploadLoop, hX]
  cases hbl : p.blit <;>
    simp [drawCallsOf_append, drawCallsOf_cons_pass, drawCallsOf_cons_pipeline,
      drawCallsOf_blit, drawCallsOf_recordDraws]

/-- The scissor rectangles of the whole draw trace: the k-th one computed
from the clip bounds of the mesh at position k of the FULL input list (even
though the k-th draw renders the k-th non-degenerate mesh). -/
theorem scissorsOf_draw (p : Pipeline) (t : Transformation) (sf : ℚ)
    (ms : List Mesh) :
    scissorsOf (p.draw t sf ms).cmds =
      (List.range (uploadLoop t initialUpload ms).offsets.length).map
        (fun k => scissorOf sf (ms.getD k defaultMesh)) := by
  rw [draw_cmds]
  have hX : scissorsOf
      (if uniformsSize * (uploadLoop t initialUpload ms).uniforms.length ≠ 0
        then [Cmd.writeBuffer BufferId.uniform 0
          (uniformsSize * (uploadLoop t initialUpload ms).uniforms.length)]
        else []) = [] := by split <;> rfl
  rw [scissorsOf_append, scissorsOf_append, scissorsOf_uploadLoop, hX]
  cases hbl : p.blit <;>
    simp [scissorsOf_append, scissorsOf_cons_pass, scissorsOf_cons_pipeline,
      scissorsOf_blit, scissorsOf_recordDraws]

/-- The render-pass begins of the whole draw trace: exactly one, on the
msaa attachment with clear-to-transparent and a resolve target when
antialiasing is on, directly on the target with a preserving load
otherwise. -/
theorem passBeginsOf_draw (p : Pipeline) (t : Transformation) (sf : ℚ)
    (ms : List Mesh) :
    passBeginsOf (p.draw t sf ms).cmds =
      [if p.blit then
        (Attachment.msaaAttachment, some Attachment.targetView,
          LoadOp.clearTransparent)
      else (Attachment.targetView, none, LoadOp.load)] := by
  rw [draw_cmds]
  have hX : passBeginsOf
      (if uniformsSize * (uploadLoop t initialUpload ms).uniforms.length ≠ 0
        then [Cmd.writeBuffer BufferId.uniform 0
          (uniformsSize * (uploadLoop t initialUpload ms).uniforms.length)]
        else []) = [] := by split <;> rfl
  rw [passBeginsOf_append, passBeginsOf_append, passBeginsOf_uploadLoop, hX]
  cases hbl : p.blit <;>
    simp [passBeginsOf_append, passBeginsOf_cons_pass, passBeginsOf_cons_pipeline,
      passBeginsOf_blit, passBeginsOf_recordDraws]

/-- The blit resolve draws of the whole draw trace: exactly one, into the
real target, when antialiasing is on; none otherwise. -/
theorem blitDrawsOf_draw (p : Pipeline) (t : Transformation) (sf : ℚ)
    (ms : List Mesh) :
    blitDrawsOf (p.draw t sf ms).cmds =
      (if p.blit then [Attachment.targetView] else []) := by
  rw [draw_cmds]
  have hX : blitDrawsOf
      (if uniformsSize * (uploadLoop t initialUpload ms).uniforms.length ≠ 0
        then [Cmd.writeBuffer BufferId.uniform 0
          (uniformsSize * (uploadLoop t initialUpload ms).uniforms.length)]
        else []) = [] := by split <;> rfl
  rw [blitDrawsOf_append, blitDrawsOf_append, blitDrawsOf_uploadLoop, hX]
  cases hbl : p.blit <;>
    simp [blitDrawsOf_append, blitDrawsOf_cons_pass, blitDrawsOf_cons_pipeline,
      blitDrawsOf_blit, blitDrawsOf_recordDraws]

/-- The vertex-buffer writes of the whole draw trace follow the spec-side
cursor description over the non-degenerate meshes, from cursor 0. -/
theorem writesToOf_vertex_draw (p : Pipeline) (t : Transformation) (sf : ℚ)
    (ms : List Mesh) :
    writesToOf BufferId.vertex (p.draw t sf ms).cmds =
      writesSpec vertex2DSize
        ((ms.filter nondegenerate).map (fun m => m.vertices.length)) 0 := by
  rw [draw_cmds]
  have hX : writesToOf BufferId.vertex
      (if uniformsSize * (uploadLoop t initialUpload ms).uniforms.length ≠ 0
        then [Cmd.writeBuffer BufferId.uniform 0
          (uniformsSize * (uploadLoop t initialUpload ms).uniforms.length)]
        else []) = [] := by split <;> rfl
  have hup := uploadLoop_vertex_writes t ms initialUpload
  rw [writesToOf_append, writesToOf_append, hup, hX]
  cases hbl : p.blit <;>
    simp [writesToOf_append, writesToOf_cons_pass,
      writesToOf_cons_pipeline, writesToOf_blit, writesToOf_recordDraws,
      initialUpload, writesToOf_nil]

/-- The index-buffer writes of the whole draw trace follow the spec-side
cursor description over the non-degenerate meshes, from cursor 0. -/
theorem writesToOf_index_draw (p : Pipeline) (t : Transformation) (sf : ℚ)
    (ms : List Mesh) :
    writesToOf BufferId.index (p.draw t sf ms).cmds =
      writesSpec u32Size
        ((ms.filter nondegenerate).map (fun m => m.indices.length)) 0 := by
  rw [draw_cmds]
  have hX : writesToOf BufferId.index
      (if uniformsSize * (uploadLoop t initialUpload ms).uniforms.length ≠ 0
        then [Cmd.writeBuffer BufferId.uniform 0
          (uniformsSize * (uploadLoop t initialUpload ms).uniforms.length)]
        else []) = [] := by split <;> rfl
  have hup := uploadLoop_index_writes t ms initialUpload
  rw [writesToOf_append, writesToOf_append, hup, hX]
  cases hbl : p.blit <;>
    simp [writesToOf_append, writesToOf_cons_pass,
      writesToOf_cons_pipeline, writesToOf_blit, writesToOf_recordDraws,
      initialUpload, writesToOf_nil]

/-- The uniform-buffer writes of the whole draw trace: one contiguous write
at byte offset 0 spanning the whole packed uniform list when that list is
non-empty, and none otherwise. -/
theorem writesToOf_uniform_draw (p : Pipeline) (t : Transformation) (sf : ℚ)
    (ms : List Mesh) :
    writesToOf BufferId.uniform (p.draw t sf ms).cmds =
      (if uniformsSize * (uploadLoop t initialUpload ms).uniforms.length ≠ 0
        then [(0,
          uniformsSize * (uploadLoop t initialUpload ms).uniforms.length)]
        else []) := by
  rw [draw_cmds]
  have hX : writesToOf BufferId.uniform
      (if uniformsSize * (uploadLoop t initialUpload ms).uniforms.length ≠ 0
        then [Cmd.writeBuffer BufferId.uniform 0
          (uniformsSize * (uploadLoop t initialUpload ms).uniforms.length)]
        else []) =
      (if uniformsSize * (uploadLoop t initialUpload ms).uniforms.length ≠ 0
        then [(0,
          uniformsSize * (uploadLoop t initialUpload ms).uniforms.length)]
        else []) := by split <;> rfl
  have hup := uploadLoop_uniform_writes t ms initialUpload
  rw [writesToOf_append, writesToOf_append, hup, hX]
  cases hbl : p.blit <;>
    simp [writesToOf_append, writesToOf_cons_pass,
      writesToOf_cons_pipeline, writesToOf_blit, writesToOf_recordDraws,
      initialUpload, writesToOf_nil]

/-- offsetsSpec records exactly one triple per mesh. -/
theorem offsetsSpec_length (ms : List Mesh) :
    ∀ vc ic, (offsetsSpec ms vc ic).length = ms.length := by
  induction ms with
  | nil => intro vc ic; rfl
  | cons m rest ih => intro vc ic; simp [offsetsSpec, ih]

/-- Every write described by writesSpec over positive element counts has a
positive byte length. -/
theorem writesSpec_pos (esize : Nat) (he : 0 < esize) :
    ∀ (ns : List Nat) (c : Nat), (∀ n ∈ ns, 0 < n) →
      ∀ x ∈ writesSpec esize ns c, 0 < x.2 := by
  intro ns
  induction ns with
  | nil => intro c _ x hx; simp [writesSpec] at hx
  | cons n rest ih =>
    intro c h x hx
    rw [writesSpec] at hx
    rcases List.mem_cons.mp hx with h1 | h2
    · rw [h1]
      exact Nat.mul_pos he (h n (by simp))
    · exact ih (c + n) (fun k hk => h k (by simp [hk])) x h2

/-- A non-degenerate mesh has a positive vertex count. -/
theorem nondegenerate_vertices_pos (m : Mesh) (h : nondegenerate m = true) :
    0 < m.vertices.length := by
  have h2 := (of_decide_eq_true h).1
  rcases Nat.eq_zero_or_pos m.vertices.length with h0 | hp
  · exact absurd (by simp [vertexBytes, h0]) h2
  · exact hp

/-- A non-degenerate mesh has a positive index count. -/
theorem nondegenerate_indices_pos (m : Mesh) (h : nondegenerate m = true) :
    0 < m.indices.length := by
  have h2 := (of_decide_eq_true h).2
  rcases Nat.eq_zero_or_pos m.indices.length with h0 | hp
  · exact absurd (by simp [indexBytes, h0]) h2
  · exact hp

/-- The translation matrix acts on a homogeneous 2D point by translating
it. -/
theorem translate_mulVec (x y px py : ℚ) :
    (Transformation.translate x y).mulVec (point px py) =
      point (px + x) (py + y) := by
  funext i
  fin_cases i <;>
    simp [Transformation.translate, point, Matrix.mulVec, Matrix.dotProduct,
      Fin.sum_univ_four, Matrix.of_apply, Matrix.cons_val_zero,
      Matrix.cons_val_one, Matrix.vecHead, Matrix.vecTail]

/-- Matrix-matrix product applied to a vector applies the right factor
first: (a * b) v = a (b v). -/
theorem mul_apply_point (a b : Transformation) (v : Fin 4 → ℚ) :
    (a * b).mulVec v = a.mulVec (b.mulVec v) :=
  (Matrix.mulVec_mulVec v a b).symm

/-! The claims. -/

/-- C4: Buffer::expand makes capacity max(previous, requested), never
decreasing; when requested exceeds the current capacity it allocates a fresh
handle of exactly the requested element count and returns true, otherwise it
leaves handle and capacity untouched and returns false, so a repeated
request at the grown size does not reallocate. -/
theorem C4_expand_exact_growth (b : Buffer) (requested : Nat) :
    (b.expand requested).1.size = max b.size requested ∧
    b.size ≤ (b.expand requested).1.size ∧
    (b.size < requested →
      (b.expand requested).1 = Buffer.mk requested (b.gen + 1) ∧
      (b.expand requested).2 = true) ∧
    (¬ b.size < requested →
      (b.expand requested).1 = b ∧ (b.expand requested).2 = false) := by
  by_cases h : b.size < requested
  · refine ⟨?_, ?_, fun _ => ⟨?_, ?_⟩, fun hc => absurd h hc⟩ <;>
      simp [Buffer.expand, h, Nat.max_eq_right (Nat.le_of_lt h),
        Nat.le_of_lt h]
  · refine ⟨?_, ?_, fun hc => absurd hc h, fun _ => ⟨?_, ?_⟩⟩ <;>
      simp [Buffer.expand, h, Nat.max_eq_left (Nat.le_of_not_lt h)]

/-- Witness for C4 at the capacity-growth scenario of the spec: capacity
10000 grown by a request of 10001 to exactly 10001 with a fresh handle, and
a repeated request of 10001 at capacity 10001 changing nothing. -/
theorem C4_expand_exact_growth_witness :
    ((Buffer.mk 10000 0).expand 10001).1 = Buffer.mk 10001 1 ∧
    ((Buffer.mk 10000 0).expand 10001).2 = true ∧
    ((Buffer.mk 10001 1).expand 10001).1 = Buffer.mk 10001 1 ∧
    ((Buffer.mk 10001 1).expand 10001).2 = false := by
  obtain ⟨-, -, hgrow, -⟩ := C4_expand_exact_growth (Buffer.mk 10000 0) 10001
  obtain ⟨-, -, -, hsame⟩ := C4_expand_exact_growth (Buffer.mk 10001 1) 10001
  obtain ⟨h1, h2⟩ := hgrow (by decide)
  obtain ⟨h3, h4⟩ := hsame (by decide)
  exact ⟨h1, h2, h3, h4⟩

/-- C8: every draw call begins exactly one render pass; with antialiasing
disabled it targets the real output with a content-preserving load and there
is no resolve, and with antialiasing enabled it targets the msaa attachment
with a clear to transparent (resolving into the real target) and exactly one
resolve invocation follows the pass, at the very end of the trace. -/
theorem C8_render_pass_structure (p : Pipeline) (t : Transformation) (sf : ℚ)
    (ms : List Mesh) :
    passBeginsOf (p.draw t sf ms).cmds =
      [if p.blit then
        (Attachment.msaaAttachment, some Attachment.targetView,
          LoadOp.clearTransparent)
      else (Attachment.targetView, none, LoadOp.load)] ∧
    blitDrawsOf (p.draw t sf ms).cmds =
      (if p.blit then [Attachment.targetView] else []) ∧
    (p.blit = true →
      (p.draw t sf ms).cmds.getLast? =
        some (Cmd.blitDraw Attachment.targetView)) := by
  refine ⟨passBeginsOf_draw p t sf ms, blitDrawsOf_draw p t sf ms, ?_⟩
  intro hb
  have hsplit : (p.draw t sf ms).cmds =
      (((uploadLoop t initialUpload ms).cmds ++
        (if uniformsSize * (uploadLoop t initialUpload ms).uniforms.length ≠ 0
          then [Cmd.writeBuffer BufferId.uniform 0
            (uniformsSize * (uploadLoop t initialUpload ms).uniforms.length)]
          else [])) ++
        (Cmd.beginRenderPass Attachment.msaaAttachment
            (some Attachment.targetView) LoadOp.clearTransparent ::
          Cmd.setPipeline ::
          recordDraws
            (if (p.uniforms_buffer.expand ms.length).2 then
                (p.uniforms_buffer.expand ms.length).1.gen
              else p.constants)
            (p.vertex_buffer.expand
              ((ms.map (fun m => m.vertices.length)).sum)).1.gen
            (p.index_buffer.expand
              ((ms.map (fun m => m.indices.length)).sum)).1.gen
            sf ms 0 (uploadLoop t initialUpload ms).offsets)) ++
        [Cmd.blitDraw Attachment.targetView] := by
    rw [draw_cmds, hb]
    simp [List.cons_append, List.append_assoc]
  rw [hsplit, List.getLast?_concat]

/-- Witness for C8, antialiasing on: one render pass on the msaa attachment
with clear-to-transparent and a resolve target, one resolve draw, and the
trace ends with it. -/
theorem C8_render_pass_structure_witness :
    passBeginsOf ((Pipeline.new true).draw Transformation.identity 1
      [meshA]).cmds =
      [(Attachment.msaaAttachment, some Attachment.targetView,
        LoadOp.clearTransparent)] ∧
    blitDrawsOf ((Pipeline.new true).draw Transformation.identity 1
      [meshA]).cmds = [Attachment.targetView] ∧
    ((Pipeline.new true).draw Transformation.identity 1
      [meshA]).cmds.getLast? = some (Cmd.blitDraw Attachment.targetView) := by
  have h := C8_render_pass_structure (Pipeline.new true)
    Transformation.identity 1 [meshA]
  exact ⟨h.1, h.2.1, h.2.2 rfl⟩

/-- C5: the dynamic uniform offset of the n-th issued draw is
n * sizeof(Uniforms), and sizeof(Uniforms) is a multiple of the 256-byte
alignment constant and at least the 64-byte natural transform size. -/
theorem C5_uniform_offset_alignment (p : Pipeline) (t : Transformation)
    (sf : ℚ) (ms : List Mesh) (n o : Nat)
    (h : (bindOffsetsOf (p.draw t sf ms).cmds)[n]? = some o) :
    o = n * uniformsSize ∧ uniformsSize % 256 = 0 ∧ 64 ≤ uniformsSize := by
  refine ⟨?_, by decide, by decide⟩
  rw [bindOffsetsOf_draw, List.getElem?_map] at h
  rcases hr : (List.range
      (uploadLoop t initialUpload ms).offsets.length)[n]? with _ | k
  · rw [hr] at h
    exact absurd h (by simp)
  · rw [hr] at h
    have hk : k = n := by
      by_cases hn : n < (uploadLoop t initialUpload ms).offsets.length
      · rw [List.getElem?_range hn] at hr
        exact (Option.some_inj.mp hr).symm
      · rw [List.getElem?_eq_none
          (by simpa using Nat.le_of_not_lt hn)] at hr
        exact absurd hr (by simp)
    have ho : o = uniformsSize * k := (Option.some_inj.mp h).symm
    rw [ho, hk, Nat.mul_comm]

/-- Witness for C5: with two non-degenerate meshes, the second bind is at
dynamic offset 256 = 1 * sizeof(Uniforms). -/
theorem C5_uniform_offset_alignment_witness :
    (bindOffsetsOf ((Pipeline.new false).draw Transformation.identity 1
      [meshA, meshB]).cmds)[1]? = some 256 ∧
    (256 = 1 * uniformsSize ∧ uniformsSize % 256 = 0 ∧
      64 ≤ uniformsSize) :=
  ⟨by decide, C5_uniform_offset_alignment (Pipeline.new false)
    Transformation.identity 1 [meshA, meshB] 1 256 (by decide)⟩

/-- C7: assuming the standing invariant that the constants bind group was
built over the current uniforms buffer handle, every bind issued by a draw
call of the frame references the uniforms buffer handle as it stands after
the frame's expand call — the fresh handle whenever expand reallocated — so
no draw ever references a stale handle, and the invariant is re-established
for the next frame. -/
theorem C7_rebind_on_grow (p : Pipeline) (t : Transformation) (sf : ℚ)
    (ms : List Mesh) (h : p.constants = p.uniforms_buffer.gen) :
    (∀ g ∈ bindGensOf (p.draw t sf ms).cmds,
      g = (p.uniforms_buffer.expand ms.length).1.gen) ∧
    (p.draw t sf ms).pipeline.constants =
      (p.draw t sf ms).pipeline.uniforms_buffer.gen := by
  have hc : (if (p.uniforms_buffer.expand ms.length).2 then
      (p.uniforms_buffer.expand ms.length).1.gen else p.constants) =
      (p.uniforms_buffer.expand ms.length).1.gen := by
    by_cases hlt : p.uniforms_buffer.size < ms.length <;>
      simp [Buffer.expand, hlt, h]
  constructor
  · intro g hg
    rw [bindGensOf_draw] at hg
    rw [List.eq_of_mem_replicate hg, hc]
  · rw [draw_pipeline]
    exact hc

/-- Witness for C7: a pipeline whose uniforms buffer (capacity 1, handle
generation 0, constants built over it) must grow for two meshes; every bind
of the frame references the fresh handle generation 1. -/
theorem C7_rebind_on_grow_witness :
    (∀ g ∈ bindGensOf ((Pipeline.mk false 0 (Buffer.mk 1 0) (Buffer.mk 10 0)
        (Buffer.mk 10 0)).draw Transformation.identity 1
        [meshA, meshB]).cmds,
      g = ((Buffer.mk 1 0).expand ([meshA, meshB] : List Mesh).length).1.gen) ∧
    bindGensOf ((Pipeline.mk false 0 (Buffer.mk 1 0) (Buffer.mk 10 0)
        (Buffer.mk 10 0)).draw Transformation.identity 1
        [meshA, meshB]).cmds = [1, 1] :=
  ⟨(C7_rebind_on_grow (Pipeline.mk false 0 (Buffer.mk 1 0) (Buffer.mk 10 0)
      (Buffer.mk 10 0)) Transformation.identity 1 [meshA, meshB] rfl).1,
    by decide⟩

/-- C1 counterexample: on a single fully degenerate mesh, the code issues
zero scissor/bind/draw triples, not one per input mesh — the claim as stated
fails. -/
theorem C1_counterexample :
    ¬ ((drawCallsOf ((Pipeline.new false).draw Transformation.identity 1
        [meshDegenerate]).cmds).length =
      ([meshDegenerate] : List Mesh).length ∧
      (uploadLoop Transformation.identity initialUpload
        [meshDegenerate]).uniforms.length =
      ([meshDegenerate] : List Mesh).length) := by decide

/-- C1 (amended): the number of scissor/bind/draw triples recorded in the
render pass equals the number of meshes with non-zero vertex and index byte
lengths, issued in input order and aligned with the uniform list; a
degenerate mesh is skipped entirely — it gets no UniformBlock and no
scissor/bind/draw call. -/
theorem C1_draw_triples (p : Pipeline) (t : Transformation) (sf : ℚ)
    (ms : List Mesh) :
    (drawCallsOf (p.draw t sf ms).cmds).length =
      (ms.filter nondegenerate).length ∧
    (scissorsOf (p.draw t sf ms).cmds).length =
      (ms.filter nondegenerate).length ∧
    (bindOffsetsOf (p.draw t sf ms).cmds).length =
      (ms.filter nondegenerate).length ∧
    (uploadLoop t initialUpload ms).uniforms.length =
      (ms.filter nondegenerate).length ∧
    drawCallsOf (p.draw t sf ms).cmds =
      (uploadLoop t initialUpload ms).offsets.map
        (fun x => (x.2.1, x.2.1 + x.2.2, x.1)) := by
  have hoff : (uploadLoop t initialUpload ms).offsets =
      offsetsSpec (ms.filter nondegenerate) 0 0 := by
    simpa [initialUpload] using uploadLoop_offsets t ms initialUpload
  have hlen : (uploadLoop t initialUpload ms).offsets.length =
      (ms.filter nondegenerate).length := by
    rw [hoff, offsetsSpec_length]
  refine ⟨?_, ?_, ?_, ?_, drawCallsOf_draw p t sf ms⟩
  · rw [drawCallsOf_draw, List.length_map, hlen]
  · rw [scissorsOf_draw, List.length_map, List.length_range, hlen]
  · rw [bindOffsetsOf_draw, List.length_map, List.length_range, hlen]
  · have h := uploadLoop_uniforms t ms initialUpload
    rw [h]
    simp [initialUpload]

/-- C3 counterexample: a mesh with three vertices but no indices is skipped
by the upload loop, so the final vertex cursor is 0 while total_vertices is
3 — the claimed equalities fail. -/
theorem C3_counterexample :
    ¬ ((uploadLoop Transformation.identity initialUpload
        [meshNoIndices]).last_vertex =
      (([meshNoIndices] : List Mesh).map (fun m => m.vertices.length)).sum ∧
      (uploadLoop Transformation.identity initialUpload
        [meshNoIndices]).last_index =
      (([meshNoIndices] : List Mesh).map (fun m => m.indices.length)).sum) := by
  decide

/-- C3 (amended): after the upload loop, the vertex and index cursors equal
the sums of the vertex and index counts over the meshes that were actually
uploaded (those with non-zero vertex and index bytes) — no overlap and no
gap among uploaded data; when no mesh is degenerate they equal
total_vertices and total_indices exactly as the original claim states. -/
theorem C3_cursor_accounting (t : Transformation) (ms : List Mesh) :
    (uploadLoop t initialUpload ms).last_vertex =
      ((ms.filter nondegenerate).map (fun m => m.vertices.length)).sum ∧
    (uploadLoop t initialUpload ms).last_index =
      ((ms.filter nondegenerate).map (fun m => m.indices.length)).sum ∧
    ((∀ m ∈ ms, nondegenerate m = true) →
      (uploadLoop t initialUpload ms).last_vertex =
        (ms.map (fun m => m.vertices.length)).sum ∧
      (uploadLoop t initialUpload ms).last_index =
        (ms.map (fun m => m.indices.length)).sum) := by
  have hv := uploadLoop_last_vertex t ms initialUpload
  have hi := uploadLoop_last_index t ms initialUpload
  refine ⟨by simpa [initialUpload] using hv,
    by simpa [initialUpload] using hi, ?_⟩
  intro hall
  have hfilter : ms.filter nondegenerate = ms := List.filter_eq_self.mpr hall
  constructor
  · rw [show (uploadLoop t initialUpload ms).last_vertex =
      ((ms.filter nondegenerate).map (fun m => m.vertices.length)).sum from
      by simpa [initialUpload] using hv, hfilter]
  · rw [show (uploadLoop t initialUpload ms).last_index =
      ((ms.filter nondegenerate).map (fun m => m.indices.length)).sum from
      by simpa [initialUpload] using hi, hfilter]

/-- Witness for C3: on the two-triangle scenario with no degenerate mesh,
the cursors equal total_vertices = 6 and total_indices = 6. -/
theorem C3_cursor_accounting_witness :
    (uploadLoop Transformation.identity initialUpload
      [meshA, meshB]).last_vertex =
      (([meshA, meshB] : List Mesh).map (fun m => m.vertices.length)).sum ∧
    (uploadLoop Transformation.identity initialUpload
      [meshA, meshB]).last_index =
      (([meshA, meshB] : List Mesh).map (fun m => m.indices.length)).sum :=
  (C3_cursor_accounting Transformation.identity [meshA, meshB]).2.2
    (by decide)

/-- C6: each uploaded mesh's UniformBlock stores the ambient transformation
times the translation by the mesh's origin; by the matrix application
semantics the translation acts first (ambient ∘ translate(origin)), a
translation moving a homogeneous point (px, py) to (px + x, py + y); with an
identity ambient transform, the two scenario meshes get exactly
translate(0, 0) and translate(10, 10). -/
theorem C6_mesh_transform (t : Transformation) (ms : List Mesh) :
    ((uploadLoop t initialUpload ms).uniforms =
      (ms.filter nondegenerate).map
        (fun m => Uniforms.mk
          (t * Transformation.translate m.originX m.originY))) ∧
    (∀ x y : ℚ, ∀ v : Fin 4 → ℚ,
      (t * Transformation.translate x y).mulVec v =
        t.mulVec ((Transformation.translate x y).mulVec v)) ∧
    (∀ x y px py : ℚ,
      (Transformation.translate x y).mulVec (point px py) =
        point (px + x) (py + y)) ∧
    (uploadLoop Transformation.identity initialUpload
      [meshA, meshB]).uniforms =
      [Uniforms.mk (Transformation.translate 0 0),
       Uniforms.mk (Transformation.translate 10 10)] := by
  refine ⟨?_,
    fun x y v => mul_apply_point t (Transformation.translate x y) v,
    fun x y px py => translate_mulVec x y px py, ?_⟩
  · simpa [initialUpload] using uploadLoop_uniforms t ms initialUpload
  have h := uploadLoop_uniforms Transformation.identity [meshA, meshB]
    initialUpload
  rw [h]
  norm_num [initialUpload, meshA, meshB, nondegenerate, vertexBytes,
    indexBytes, vertex2DSize, u32Size, f32Size, List.filter,
    Transformation.identity]

/-- C9: the vertex and index bytes of every uploaded mesh go to byte offsets
vertex_cursor * sizeof(Vertex2D) and index_cursor * sizeof(u32) with the
cursors as of that mesh, and the packed uniform list goes out as a single
contiguous write at byte 0 whenever it is non-empty. -/
theorem C9_upload_offsets (p : Pipeline) (t : Transformation) (sf : ℚ)
    (ms : List Mesh) :
    writesToOf BufferId.vertex (p.draw t sf ms).cmds =
      writesSpec vertex2DSize
        ((ms.filter nondegenerate).map (fun m => m.vertices.length)) 0 ∧
    writesToOf BufferId.index (p.draw t sf ms).cmds =
      writesSpec u32Size
        ((ms.filter nondegenerate).map (fun m => m.indices.length)) 0 ∧
    ((uploadLoop t initialUpload ms).uniforms.length ≠ 0 →
      writesToOf BufferId.uniform (p.draw t sf ms).cmds =
        [(0, uniformsSize *
          (uploadLoop t initialUpload ms).uniforms.length)]) := by
  refine ⟨writesToOf_vertex_draw p t sf ms,
    writesToOf_index_draw p t sf ms, ?_⟩
  intro hne
  have hmul : uniformsSize *
      (uploadLoop t initialUpload ms).uniforms.length ≠ 0 :=
    Nat.mul_ne_zero (by decide) hne
  rw [writesToOf_uniform_draw, if_pos hmul]

/-- Witness for C9: with the two scenario meshes, the packed uniform list is
written once, contiguously, at byte 0. -/
theorem C9_upload_offsets_witness :
    writesToOf BufferId.uniform ((Pipeline.new false).draw
      Transformation.identity 1 [meshA, meshB]).cmds =
      [(0, uniformsSize * (uploadLoop Transformation.identity initialUpload
        [meshA, meshB]).uniforms.length)] :=
  (C9_upload_offsets (Pipeline.new false) Transformation.identity 1
    [meshA, meshB]).2.2 (by decide)

/-- C10: no staging-belt write recorded by Pipeline.draw has a zero byte
length, on any input: per-mesh writes happen only when both byte lengths
are non-zero, and the uniform write only when the packed list is
non-empty. -/
theorem C10_no_zero_writes (p : Pipeline) (t : Transformation) (sf : ℚ)
    (ms : List Mesh) (b : BufferId) (o l : Nat)
    (hmem : Cmd.writeBuffer b o l ∈ (p.draw t sf ms).cmds) : 0 < l := by
  have hin : (o, l) ∈ writesToOf b (p.draw t sf ms).cmds :=
    List.mem_filterMap.mpr ⟨Cmd.writeBuffer b o l, hmem, by simp⟩
  cases b with
  | vertex =>
    rw [writesToOf_vertex_draw] at hin
    have hpos : ∀ n ∈ (ms.filter nondegenerate).map
        (fun m => m.vertices.length), 0 < n := by
      intro n hn
      rcases List.mem_map.mp hn with ⟨m, hm, hrfl⟩
      rw [← hrfl]
      exact nondegenerate_vertices_pos m (List.mem_filter.mp hm).2
    exact writesSpec_pos vertex2DSize (by decide) _ 0 hpos (o, l) hin
  | index =>
    rw [writesToOf_index_draw] at hin
    have hpos : ∀ n ∈ (ms.filter nondegenerate).map
        (fun m => m.indices.length), 0 < n := by
      intro n hn
      rcases List.mem_map.mp hn with ⟨m, hm, hrfl⟩
      rw [← hrfl]
      exact nondegenerate_indices_pos m (List.mem_filter.mp hm).2
    exact writesSpec_pos u32Size (by decide) _ 0 hpos (o, l) hin
  | uniform =>
    rw [writesToOf_uniform_draw] at hin
    by_cases hz : uniformsSize *
        (uploadLoop t initialUpload ms).uniforms.length ≠ 0
    · rw [if_pos hz] at hin
      have h := List.mem_singleton.mp hin
      have hl : l = uniformsSize *
          (uploadLoop t initialUpload ms).uniforms.length :=
        congrArg Prod.snd h
      rw [hl]
      exact Nat.pos_of_ne_zero hz
    · rw [if_neg hz] at hin
      exact absurd hin (List.not_mem_nil (o, l))

/-- Witness for C10: the vertex write recorded for the scenario mesh exists
in the trace and has the positive length 72 = 3 * sizeof(Vertex2D). -/
theorem C10_no_zero_writes_witness :
    Cmd.writeBuffer BufferId.vertex 0 (vertexBytes meshA) ∈
      ((Pipeline.new false).draw Transformation.identity 1 [meshA]).cmds ∧
    0 < vertexBytes meshA :=
  ⟨by decide, C10_no_zero_writes (Pipeline.new false) Transformation.identity
    1 [meshA] BufferId.vertex 0 (vertexBytes meshA) (by decide)⟩

/-- C2 is refuted by the code (code bug): at input [degenerate mesh with
clip (0,0,100,100), triangle mesh with clip (0,0,50,50)] and scale factor 1,
exactly one draw call is issued and it renders the triangle mesh's data
(index range 0..3, base vertex 0), yet the scissor rectangle set before it
is (0,0,100,100) — the clip of the SKIPPED degenerate mesh, because the
render loop indexes the full mesh list with the filtered draw index — while
the rendered mesh's own scaled and snapped clip is (0,0,50,50). -/
theorem C2_scissor_misalignment :
    scissorsOf ((Pipeline.new false).draw Transformation.identity 1
      [meshDegenerate, meshB]).cmds = [URect.mk 0 0 100 100] ∧
    drawCallsOf ((Pipeline.new false).draw Transformation.identity 1
      [meshDegenerate, meshB]).cmds = [(0, 3, 0)] ∧
    scissorOf 1 meshB = URect.mk 0 0 50 50 := by
  refine ⟨?_, by decide, ?_⟩
  · norm_num [Pipeline.draw, Pipeline.new, uploadLoop, uploadMesh,
      initialUpload, recordDraws, scissorOf, Rectangle.scale, Rectangle.snap,
      scissorsOf, meshDegenerate, meshB, vertexBytes, indexBytes,
      Buffer.expand, uniformsSize, f32Size, u32Size, vertex2DSize,
      defaultMesh, ratFloor_eq, ratCeil_eq, List.filterMap]
    decide
  · norm_num [scissorOf, meshB, Rectangle.scale, Rectangle.snap,
      ratFloor_eq, ratCeil_eq]
    decide

end Iced
